import Mathlib

/-!
Verification of the Antarctic temperature dashboard (`src/app.py`).

The program keeps a process-wide `deque(maxlen=100)` of simulated temperature
readings, appends one fresh reading per reactive tick, and renders the latest
reading (with unit conversion and a qualitative message) together with a
scatter chart carrying a `scipy.stats.linregress` trend line over the window.

The embedding below translates the data-handling core of `app.py` into Lean:
temperatures are exact rationals (`ℚ`) standing for the Python floats, the
deque is a `List` with the `maxlen` eviction rule made explicit, and the
fallible / NaN-producing paths of `linregress` are modelled with `Option`.
-/

namespace AntarcticApp

/-- One reading, as produced inside `reactive_calc_combined`:
`{"temp": temp, "timestamp": timestamp}` (app.py line 32). -/
structure Reading where
  temp : ℚ
  timestamp : String
deriving DecidableEq, Repr

/-- `MAX_DEQUE_LENGTH = 100` (app.py line 20). -/
def MAX_DEQUE_LENGTH : ℕ := 100

/-- One `deque.append` on a `deque(maxlen=N)` (app.py line 21 / line 32):
when the deque is below capacity the element goes to the tail; at capacity
the head (oldest) entry is evicted first, then the element is appended. -/
def dequeAppend (N : ℕ) (w : List α) (x : α) : List α :=
  if w.length < N then w ++ [x] else w.drop 1 ++ [x]

/-- The window contents after appending the readings `xs`, in order, into an
initially empty `deque(maxlen=MAX_DEQUE_LENGTH)` — the state of `temp_deque`
after that sequence of ticks. -/
def windowAfter (xs : List Reading) : List Reading :=
  xs.foldl (dequeAppend MAX_DEQUE_LENGTH) []

/-- A concrete run of 101 ticks: reading `i` carries temperature `i`. -/
def sampleRun : List Reading :=
  (List.range 101).map (fun i : ℕ => { temp := (i : ℚ), timestamp := "t" })

/-- Python's `round(x, 1)`: the value rounded to one decimal place, modelled
with Mathlib's `round` on `ℚ`.  (Python uses round-half-even on binary
floats; the two conventions differ only at exact ties, on which none of the
proved statements depend.) -/
def round1 (q : ℚ) : ℚ := (round (10 * q) : ℚ) / 10

/-- One draw of the sample generator (app.py lines 28-29):
`temp = round(random.uniform(-18, -16), 1)` together with the formatted
current wall-clock timestamp.  The uniform draw `u` and the clock string
`ts` are the two environment inputs. -/
def generate (u : ℚ) (ts : String) : Reading :=
  { temp := round1 u, timestamp := ts }

/-- The classification in `temp_message` (app.py line 223): the rendered
message is "Micro Heatwave" when `temp_celsius > -17`, else
"Could be Warmer". -/
def classify (t : ℚ) : String :=
  if t > -17 then "Micro Heatwave" else "Could be Warmer"

/-- The three values of the `temp_unit` radio input (app.py lines 103-108). -/
inductive TempUnit
  | celsius
  | fahrenheit
  | kelvin
deriving DecidableEq, Repr

/-- The conversion applied by `display_temp` to the latest reading
(app.py lines 166-173): Fahrenheit and Kelvin are converted and rounded to
one decimal; the Celsius branch returns the stored value unchanged. -/
def display_temp_value (u : TempUnit) (t : ℚ) : ℚ :=
  match u with
  | .fahrenheit => round1 (t * 9 / 5 + 32)
  | .kelvin => round1 (t + 27315 / 100)
  | .celsius => t

/-- The conversion applied by `display_plot` to the copied DataFrame column
(app.py lines 261-268): the same affine maps, with no rounding anywhere. -/
def plot_temp_value (u : TempUnit) (t : ℚ) : ℚ :=
  match u with
  | .fahrenheit => t * 9 / 5 + 32
  | .kelvin => t + 27315 / 100
  | .celsius => t

/-- Modelled from the spec (section 4.3), for comparison with the source's
two conversion sites: `to_unit` converts and rounds to one decimal place in
every branch, including Celsius. -/
def to_unit_spec (t : ℚ) (u : TempUnit) : ℚ :=
  match u with
  | .fahrenheit => round1 (t * 9 / 5 + 32)
  | .kelvin => round1 (t + 27315 / 100)
  | .celsius => round1 t

/-- The regression x-values `x_vals = range(len(df))` (app.py line 281),
as rationals. -/
def xIndices (n : ℕ) : List ℚ :=
  (List.range n).map (fun i : ℕ => (i : ℚ))

/-- Mean of the x-values, scipy's `xmean`. -/
def xmean (ys : List ℚ) : ℚ :=
  (xIndices ys.length).sum / ys.length

/-- Mean of the y-values, scipy's `ymean`. -/
def ymean (ys : List ℚ) : ℚ :=
  ys.sum / ys.length

/-- The centred sum of squares of the x-values,
`Σ (xᵢ - x̄)²` (the numerator of scipy's biased covariance entry). -/
def Sxx (ys : List ℚ) : ℚ :=
  ((xIndices ys.length).map (fun x => (x - xmean ys) ^ 2)).sum

/-- The centred sum of cross products, `Σ (xᵢ - x̄) * (yᵢ - ȳ)`. -/
def Sxy (ys : List ℚ) : ℚ :=
  (((xIndices ys.length).zip ys).map
    (fun p => (p.1 - xmean ys) * (p.2 - ymean ys))).sum

/-- scipy's `ssxm`, the biased (`bias=1`, normalise by n) x-variance from
`np.cov(x, y, bias=1)`. -/
def ssxm (ys : List ℚ) : ℚ := Sxx ys / ys.length

/-- scipy's `ssxym`, the biased covariance of x and y. -/
def ssxym (ys : List ℚ) : ℚ := Sxy ys / ys.length

/-- `scipy.stats.linregress(range(n), ys)` as invoked by `display_plot`
(app.py lines 281-283), restricted to the slope/intercept pair the caller
unpacks.  scipy raises `ValueError` on empty input; and on a single point
(where `ssxm = 0` but the identical-x guard does not fire, being restricted
to `len(x) > 1`) the computation `slope = ssxym / ssxm` divides zero by
zero, so slope and intercept are IEEE NaN.  Both failure shapes are
modelled as `none`.  Otherwise the result is scipy's closed form
`(ssxym / ssxm, ymean - slope * xmean)`. -/
def linregress (ys : List ℚ) : Option (ℚ × ℚ) :=
  if ys.isEmpty then none
  else if ssxm ys = 0 then none
  else
    let slope := ssxym ys / ssxm ys
    some (slope, ymean ys - slope * xmean ys)

/-- Modelled from the spec (section 4.2), for the refinement comparison with
`linregress`: the ordinary-least-squares slope
`Σ(xᵢ-x̄)(yᵢ-ȳ) / Σ(xᵢ-x̄)²` over the index-ordered points. -/
def slope_spec (ys : List ℚ) : ℚ := Sxy ys / Sxx ys

/-- Modelled from the spec (section 4.2): `intercept = ȳ - slope·x̄`. -/
def intercept_spec (ys : List ℚ) : ℚ :=
  ymean ys - slope_spec ys * xmean ys

/-- What `display_plot` hands to the UI: either the
"No data available for plotting." placeholder (app.py line 300) or a chart
carrying the converted temperatures and the regression result. -/
inductive PlotOutput
  | noData
  | chart (temps : List ℚ) (fit : Option (ℚ × ℚ))
deriving DecidableEq

/-- `display_plot` (app.py lines 246-300) as a state-passing operation on
the deque.  It reads the DataFrame copy built by `reactive_calc_combined`
(`df = pd.DataFrame(temp_deque)`, line 35); when the copy is empty it
returns the placeholder without ever reaching the fit; otherwise it
overwrites the *copy's* temp column with the selected unit's conversion
(no rounding, lines 261-266) and fits the regression on the converted copy
(lines 281-283).  The first component is the deque after the render. -/
def display_plot (w : List Reading) (u : TempUnit) :
    List Reading × PlotOutput :=
  let df := w.map Reading.temp
  if df.isEmpty then (w, PlotOutput.noData)
  else
    let converted := df.map (plot_temp_value u)
    (w, PlotOutput.chart converted (linregress converted))

/-- The snapshot step of `reactive_calc_combined` (app.py lines 34-35):
`pd.DataFrame(temp_deque)` builds a fresh row list from the deque in
insertion order.  Modelled as a state-passing read returning the deque
state after the call together with the rows read. -/
def snapshot (w : List Reading) : List Reading × List Reading :=
  (w, w.map id)

/-- One invocation of `reactive_calc_combined` (app.py lines 24-39): one
draw, one append, the DataFrame snapshot, and the latest entry, returned
together so every render output reads the same reading for the tick. -/
def reactive_calc_combined (w : List Reading) (u : ℚ) (ts : String) :
    List Reading × List Reading × Reading :=
  let r := generate u ts
  let w' := dequeAppend MAX_DEQUE_LENGTH w r
  (w', (snapshot w').2, r)

/-- A below-capacity window grows by one; the eviction step keeps the length
at capacity.  Folded form: one `dequeAppend` on a window of length `≤ N`
yields exactly the suffix of the appended sequence that fits. -/
lemma dequeAppend_eq_drop {N : ℕ} (hN : 0 < N) (w : List α) (x : α)
    (hw : w.length ≤ N) :
    dequeAppend N w x = (w ++ [x]).drop (w.length + 1 - N) := by
  unfold dequeAppend
  by_cases h : w.length < N
  · rw [if_pos h]
    have : w.length + 1 - N = 0 := by omega
    rw [this, List.drop_zero]
  · rw [if_neg h]
    have hwN : w.length = N := by omega
    have h1 : w.length + 1 - N = 1 := by omega
    rw [h1, List.drop_append_of_le_length (by omega)]

/-- Main window invariant: folding `dequeAppend N` over any append sequence
starting from a window of length `≤ N` produces exactly the suffix of the
total sequence that fits in the capacity. -/
lemma foldl_dequeAppend_eq_drop {N : ℕ} (hN : 0 < N) :
    ∀ (xs w : List α), w.length ≤ N →
      xs.foldl (dequeAppend N) w = (w ++ xs).drop (w.length + xs.length - N) := by
  intro xs
  induction xs with
  | nil =>
    intro w hw
    simp [Nat.sub_eq_zero_of_le hw]
  | cons x xs ih =>
    intro w hw
    rw [List.foldl_cons]
    have hrepr := dequeAppend_eq_drop hN w x hw
    have hlx : (w ++ [x]).length = w.length + 1 := by simp
    have hw' : (dequeAppend N w x).length ≤ N := by
      rw [hrepr, List.length_drop, hlx]
      omega
    have hdle : w.length + 1 - N ≤ (w ++ [x]).length := by
      rw [hlx]
      omega
    rw [ih _ hw']
    conv_lhs => rw [hrepr]
    rw [← List.drop_append_of_le_length hdle, List.drop_drop]
    have hassoc : (w ++ [x]) ++ xs = w ++ x :: xs := by simp
    rw [hassoc]
    congr 1
    rw [List.length_drop, hlx, List.length_cons]
    omega

/-- Specialisation to the empty initial window. -/
lemma windowAfter_eq_drop (xs : List Reading) :
    windowAfter xs = xs.drop (xs.length - MAX_DEQUE_LENGTH) := by
  have h := foldl_dequeAppend_eq_drop (N := MAX_DEQUE_LENGTH) (by decide)
    xs ([] : List Reading) (by simp)
  simpa [windowAfter] using h

/-- Length of the window after any append sequence. -/
lemma windowAfter_length (xs : List Reading) :
    (windowAfter xs).length = min xs.length MAX_DEQUE_LENGTH := by
  rw [windowAfter_eq_drop, List.length_drop]
  omega

/-- C1: the Sample Window is a FIFO buffer of capacity `N = 100`.  For every
append sequence of length `100 + k` into the initially empty deque, the
window length never exceeds 100 at any intermediate step, the final snapshot
has length `min (100 + k) 100`, and its contents are exactly the most recent
100 readings of the full sequence in insertion order (`xs.drop k`); for
`k = 1` (101 appends) the first reading is dropped and readings 2..101
remain in order. -/
theorem window_fifo_capacity (k : ℕ) (xs : List Reading)
    (hlen : xs.length = 100 + k) :
    (∀ p : List Reading, p.IsPrefix xs → (windowAfter p).length ≤ 100) ∧
      (windowAfter xs).length = min (100 + k) 100 ∧
      windowAfter xs = xs.drop k := by
  refine ⟨?_, ?_, ?_⟩
  · intro p _
    rw [windowAfter_length]
    have : MAX_DEQUE_LENGTH = 100 := rfl
    omega
  · rw [windowAfter_length, hlen]
    rfl
  · rw [windowAfter_eq_drop, hlen]
    have : MAX_DEQUE_LENGTH = 100 := rfl
    rw [this]
    congr 1
    omega

/-- Witness for C1 at a concrete 101-element append sequence. -/
theorem window_fifo_capacity_witness :
    sampleRun.length = 100 + 1 ∧
      ((∀ p : List Reading, p.IsPrefix sampleRun →
          (windowAfter p).length ≤ 100) ∧
        (windowAfter sampleRun).length = min (100 + 1) 100 ∧
        windowAfter sampleRun = sampleRun.drop 1) :=
  ⟨by simp [sampleRun],
    window_fifo_capacity 1 _
      (by simp [sampleRun])⟩

/-- C6: `temp_message` renders "Micro Heatwave" exactly when the Celsius
value is strictly above -17 and "Could be Warmer" otherwise; at the boundary
-17.0 the message is "Could be Warmer", at -16.9 it is "Micro Heatwave", and
at -17.1 it is "Could be Warmer". -/
theorem classify_threshold :
    (∀ t : ℚ, (classify t = "Micro Heatwave" ↔ -17 < t) ∧
        (classify t = "Could be Warmer" ↔ t ≤ -17)) ∧
      classify (-17) = "Could be Warmer" ∧
      classify (-169/10) = "Micro Heatwave" ∧
      classify (-171/10) = "Could be Warmer" := by
  have hne : ("Could be Warmer" : String) ≠ "Micro Heatwave" := by decide
  have hne' : ("Micro Heatwave" : String) ≠ "Could be Warmer" := by decide
  refine ⟨fun t => ⟨?_, ?_⟩, by norm_num [classify], by norm_num [classify],
    by norm_num [classify]⟩
  · unfold classify
    split_ifs with h
    · exact iff_of_true rfl h
    · exact iff_of_false hne h
  · unfold classify
    split_ifs with h
    · exact iff_of_false hne' (not_le.mpr h)
    · exact iff_of_true rfl (not_lt.mp h)

/-- C4: invoking the fit on an empty sequence fails (scipy's
`ValueError("Inputs must not be empty.")`, the spec's
`InsufficientDataError`; modelled as `none`); `display_plot` never reaches
the fit on an empty window and renders the "no data" placeholder instead,
while on any non-empty window it renders a chart, never the placeholder. -/
theorem empty_window_no_fit :
    linregress [] = none ∧
      (∀ u : TempUnit, display_plot [] u = ([], PlotOutput.noData)) ∧
      (∀ (u : TempUnit) (r : Reading) (w : List Reading),
        (display_plot (r :: w) u).2 ≠ PlotOutput.noData) := by
  refine ⟨rfl, fun u => rfl, fun u r w => ?_⟩
  simp [display_plot]

/-- C9: the snapshot read (`pd.DataFrame(temp_deque)`) is read-only and
idempotent: it returns the window contents in chronological order, leaves
the deque unchanged, and two snapshots with no intervening append return
equal sequences. -/
theorem snapshot_readonly_idempotent (w : List Reading) :
    (snapshot w).1 = w ∧
      (snapshot w).2 = w ∧
      (snapshot ((snapshot w).1)).2 = (snapshot w).2 :=
  ⟨rfl, by simp [snapshot], rfl⟩

/-- C10: rendering the chart never mutates the stored window: for every
window and selected unit, `display_plot` leaves the deque exactly as it was
(original Celsius temps and timestamps), and on a non-empty window the chart
it renders is built from a converted copy of those temps. -/
theorem display_plot_preserves_window (w : List Reading) (u : TempUnit) :
    (display_plot w u).1 = w ∧
      ∀ (r : Reading) (rest : List Reading),
        (display_plot (r :: rest) u).2 =
          PlotOutput.chart (((r :: rest).map Reading.temp).map (plot_temp_value u))
            (linregress (((r :: rest).map Reading.temp).map (plot_temp_value u))) :=
  ⟨by cases w <;> rfl, fun r rest => rfl⟩

/-- Helper pinning the value of `round1` by bracketing `10q + 1/2`. -/
lemma round1_eq_of_bounds (q : ℚ) (m : ℤ) (h1 : (m : ℚ) ≤ 10 * q + 1 / 2)
    (h2 : 10 * q + 1 / 2 < (m : ℚ) + 1) : round1 q = (m : ℚ) / 10 := by
  unfold round1
  rw [round_eq, Int.floor_eq_iff.mpr ⟨h1, h2⟩]

/-- C5: for every uniform draw `u ∈ [-18, -16]` and captured clock string,
the generated Reading's value stays in the closed interval `[-18, -16]`, is
an exact integer multiple of 1/10 (one decimal place), and the Reading
carries the captured clock as its timestamp; `generate` is a total
function of its inputs. -/
theorem generate_range_rounded (u : ℚ) (ts : String)
    (hlo : -18 ≤ u) (hhi : u ≤ -16) :
    (-18 ≤ (generate u ts).temp ∧ (generate u ts).temp ≤ -16) ∧
      (∃ m : ℤ, (generate u ts).temp = (m : ℚ) / 10) ∧
      (generate u ts).timestamp = ts := by
  have htemp : (generate u ts).temp = (round (10 * u) : ℚ) / 10 := rfl
  have h1 : (-180 : ℤ) ≤ round (10 * u) := by
    rw [round_eq, Int.le_floor]
    push_cast
    linarith
  have h2 : round (10 * u) ≤ (-160 : ℤ) := by
    rw [round_eq]
    have hlt : (10 * u + 1 / 2 : ℚ) < ((-159 : ℤ) : ℚ) := by
      push_cast
      linarith
    have := Int.floor_lt.mpr hlt
    omega
  have hc1 : ((-180 : ℤ) : ℚ) ≤ (round (10 * u) : ℚ) := by exact_mod_cast h1
  have hc2 : ((round (10 * u) : ℚ)) ≤ ((-160 : ℤ) : ℚ) := by exact_mod_cast h2
  push_cast at hc1 hc2
  refine ⟨⟨?_, ?_⟩, ⟨round (10 * u), htemp⟩, rfl⟩
  · rw [htemp]
    linarith
  · rw [htemp]
    linarith

/-- Witness for C5 at the concrete draw -17.25 and clock string "x". -/
theorem generate_range_rounded_witness :
    ((-18 : ℚ) ≤ -69/4 ∧ (-69/4 : ℚ) ≤ -16) ∧
      (((-18 : ℚ) ≤ (generate (-69/4) "x").temp ∧
          (generate (-69/4) "x").temp ≤ -16) ∧
        (∃ m : ℤ, (generate (-69/4) "x").temp = (m : ℚ) / 10) ∧
        (generate (-69/4) "x").timestamp = "x") :=
  ⟨⟨by norm_num, by norm_num⟩,
    generate_range_rounded (-69/4) "x" (by norm_num) (by norm_num)⟩

/-- C7 counterexample: the chart path applies the Fahrenheit conversion
without the claimed rounding to one decimal place.  At the generatable
Celsius value -16.3, `display_plot` plots and fits -16.3·9/5 + 32 = 2.66,
while the claimed conversion `to_unit_spec` rounds it to 2.7. -/
theorem plot_conversion_unrounded_cex :
    plot_temp_value TempUnit.fahrenheit (-163/10) = 133/50 ∧
      to_unit_spec (-163/10) TempUnit.fahrenheit = 27/10 ∧
      plot_temp_value TempUnit.fahrenheit (-163/10) ≠
        to_unit_spec (-163/10) TempUnit.fahrenheit := by
  have h1 : plot_temp_value TempUnit.fahrenheit (-163/10) = 133/50 := by
    norm_num [plot_temp_value]
  have h2 : to_unit_spec (-163/10) TempUnit.fahrenheit = 27/10 := by
    show round1 ((-163/10 : ℚ) * 9 / 5 + 32) = 27/10
    rw [round1_eq_of_bounds _ 27 (by norm_num) (by norm_num)]
    norm_num
  refine ⟨h1, h2, ?_⟩
  rw [h1, h2]
  norm_num

/-- C7 amended: the rounded conversion is applied only by the
current-temperature display and only for Fahrenheit and Kelvin (where it
agrees with the spec's `to_unit`): the Celsius display shows the stored
value unchanged, and the chart path feeding the trend fit applies the
affine conversions with no rounding at all. -/
theorem unit_conversion_sites (t : ℚ) :
    display_temp_value TempUnit.fahrenheit t = to_unit_spec t TempUnit.fahrenheit ∧
      display_temp_value TempUnit.kelvin t = to_unit_spec t TempUnit.kelvin ∧
      display_temp_value TempUnit.celsius t = t ∧
      plot_temp_value TempUnit.fahrenheit t = t * 9 / 5 + 32 ∧
      plot_temp_value TempUnit.kelvin t = t + 27315 / 100 ∧
      plot_temp_value TempUnit.celsius t = t :=
  ⟨rfl, rfl, rfl, rfl, rfl, rfl⟩

/-- The centred sum of squares of the index x-values is nonzero as soon as
there are at least two points: the terms for indices 0 and 1 cannot both
vanish. -/
lemma Sxx_ne_zero (ys : List ℚ) (h2 : 2 ≤ ys.length) : Sxx ys ≠ 0 := by
  intro h0
  unfold Sxx at h0
  have hnn : ∀ x ∈ (xIndices ys.length).map (fun x => (x - xmean ys) ^ 2),
      0 ≤ x := by
    intro x hx
    obtain ⟨a, _, rfl⟩ := List.mem_map.mp hx
    positivity
  have hmem0 : (((0:ℕ) : ℚ) - xmean ys) ^ 2 ∈
      (xIndices ys.length).map (fun x => (x - xmean ys) ^ 2) :=
    List.mem_map_of_mem _ (List.mem_map_of_mem _ (List.mem_range.mpr (by omega)))
  have hmem1 : (((1:ℕ) : ℚ) - xmean ys) ^ 2 ∈
      (xIndices ys.length).map (fun x => (x - xmean ys) ^ 2) :=
    List.mem_map_of_mem _ (List.mem_map_of_mem _ (List.mem_range.mpr (by omega)))
  have e0 := List.all_zero_of_le_zero_le_of_sum_eq_zero hnn h0 hmem0
  have e1 := List.all_zero_of_le_zero_le_of_sum_eq_zero hnn h0 hmem1
  push_cast at e0 e1
  have c0 : (0 : ℚ) - xmean ys = 0 := pow_eq_zero_iff two_ne_zero |>.mp e0
  have c1 : (1 : ℚ) - xmean ys = 0 := pow_eq_zero_iff two_ne_zero |>.mp e1
  rw [sub_eq_zero] at c0 c1
  rw [← c0] at c1
  norm_num at c1

/-- C2: on every input of at least two points (where the claimed closed form
has a nonzero denominator), the source's call `linregress(range(n), ys)`
returns exactly the spec's ordinary-least-squares slope
`Σ(xᵢ-x̄)(yᵢ-ȳ) / Σ(xᵢ-x̄)²` and intercept `ȳ - slope·x̄`; in particular on
the perfect line (0,1), (1,2), (2,3) it returns slope 1 and intercept 1. -/
theorem linregress_matches_ols (ys : List ℚ) (h2 : 2 ≤ ys.length) :
    linregress ys = some (slope_spec ys, intercept_spec ys) ∧
      linregress [1, 2, 3] = some (1, 1) := by
  constructor
  · have hne : ¬ (ys.isEmpty = true) := by
      cases ys with
      | nil => simp at h2
      | cons a l => simp
    have hn0 : (ys.length : ℚ) ≠ 0 := Nat.cast_ne_zero.mpr (by omega)
    have hSxx : Sxx ys ≠ 0 := Sxx_ne_zero ys h2
    have hssxm : ssxm ys ≠ 0 := div_ne_zero hSxx hn0
    have hslope : ssxym ys / ssxm ys = slope_spec ys := by
      unfold ssxym ssxm slope_spec
      exact div_div_div_cancel_right₀ hn0 _ _
    unfold linregress
    rw [if_neg hne, if_neg hssxm]
    show some (ssxym ys / ssxm ys, ymean ys - ssxym ys / ssxm ys * xmean ys) =
      some (slope_spec ys, intercept_spec ys)
    rw [hslope]
    rfl
  · norm_num [linregress, ssxm, ssxym, Sxx, Sxy, xmean, ymean, xIndices,
      List.range_succ]

/-- Witness for C2 at the perfect line (0,1), (1,2), (2,3). -/
theorem linregress_matches_ols_witness :
    2 ≤ ([1, 2, 3] : List ℚ).length ∧
      (linregress [1, 2, 3] = some (slope_spec [1, 2, 3], intercept_spec [1, 2, 3]) ∧
        linregress [1, 2, 3] = some (1, 1)) :=
  ⟨by norm_num, linregress_matches_ols [1, 2, 3] (by norm_num)⟩

/-- C3 counterexample: on the single point (0, 5.0) the fit does not return
the documented degenerate convention slope 0 / intercept 5: scipy's
`slope = ssxym / ssxm` divides 0 by 0 there (the identical-x `ValueError`
guard requires `len(x) > 1` and does not fire), producing NaN slope and
intercept, modelled as `none`. -/
theorem linregress_single_point_cex :
    linregress [5] = none ∧ linregress [5] ≠ some (0, 5) := by
  have h : linregress [5] = none := by
    norm_num [linregress, ssxm, Sxx, xmean, xIndices, List.range_succ]
  refine ⟨h, ?_⟩
  rw [h]
  intro hc
  exact Option.noConfusion hc

/-- C3 amended: on every single-element input the biased x-variance `ssxm`
is zero and the unguarded float division `slope = ssxym / ssxm` yields NaN
for both slope and intercept (modelled `none`); the code neither raises nor
implements the documented slope-0 / intercept-value convention. -/
theorem linregress_single_point (y : ℚ) : linregress [y] = none := by
  norm_num [linregress, ssxm, Sxx, xmean, xIndices, List.range_succ]

end AntarcticApp
